import Mathlib

/-!
A shallow embedding of `panoramix/functions.py`: the negotiation/consensus
engine, the consensus-authorization layer, the permission checker, and the
endpoint cycle state machine.  Python dict-shaped request payloads are
embedded as a `Value` type; Django ORM model rows become Lean structures and
explicit stores (lists of rows); raising `ValidationError`, `PermissionDenied`
or `Http404` becomes returning `Except.error` with the matching `Err` kind;
an unhandled Python exception (e.g. `UnboundLocalError`, `KeyError`) becomes
`Err.crash`.  The external collaborators (the canonical codec, SHA-256, the
signature backend) are bundled into a `Codec` parameter, mirroring the
`canonical`, `utils.hash_string` and `backend` imports of the source.
-/

namespace Panoramix

/-! A Python value as it appears in request payloads and decoded canonical
documents: `None`, booleans, strings, lists and string-keyed dicts (the list
and dict spines are their own inductives so equality stays decidable). -/

mutual

inductive Value where
  | null : Value
  | bool (b : Bool) : Value
  | str (s : String) : Value
  | list (xs : ValueList) : Value
  | dict (entries : ValueDict) : Value
deriving DecidableEq, Repr

inductive ValueList where
  | nil : ValueList
  | cons (v : Value) (tl : ValueList) : ValueList
deriving DecidableEq, Repr

inductive ValueDict where
  | nil : ValueDict
  | cons (k : String) (v : Value) (tl : ValueDict) : ValueDict
deriving DecidableEq, Repr

end

/-- The spine of a list value as a Lean list. -/
def ValueList.toList : ValueList → List Value
  | .nil => []
  | .cons v tl => v :: tl.toList

/-- A list value from a Lean list. -/
def ValueList.ofList : List Value → ValueList
  | [] => .nil
  | v :: tl => .cons v (ValueList.ofList tl)

/-- The entries of a dict value as a Lean association list (insertion
order). -/
def ValueDict.toList : ValueDict → List (String × Value)
  | .nil => []
  | .cons k v tl => (k, v) :: tl.toList

/-- A dict value from a Lean association list. -/
def ValueDict.ofList : List (String × Value) → ValueDict
  | [] => .nil
  | (k, v) :: tl => .cons k v (ValueDict.ofList tl)

/-- A list value from a Lean list of values. -/
def Value.mkList (xs : List Value) : Value := .list (ValueList.ofList xs)

/-- A dict value from a Lean association list. -/
def Value.mkDict (xs : List (String × Value)) : Value := .dict (ValueDict.ofList xs)

/-- Lookup of a key in a dict `Value`, first matching entry wins; `none` when
the value is not a dict or the key is absent (Python `d.get(k)` giving `None`
is recovered by the caller's treatment of `none`). -/
def Value.get? (v : Value) (key : String) : Option Value :=
  match v with
  | .dict entries => (entries.toList.find? (fun e => e.1 == key)).map (·.2)
  | _ => none

/-- Python `d.get(key, dflt)`. -/
def Value.getD (v : Value) (key : String) (dflt : Value) : Value :=
  (v.get? key).getD dflt

/-- Python truthiness of a value (`if x:`): `None` and `False` are falsy, a
string/list/dict is truthy when non-empty. -/
def Value.truthy : Value → Bool
  | .null => false
  | .bool b => b
  | .str s => !s.isEmpty
  | .list xs => !xs.toList.isEmpty
  | .dict entries => !entries.toList.isEmpty

/-- The string content of a `Value`, when it is a string. -/
def Value.asStr? : Value → Option String
  | .str s => some s
  | _ => none

/-- The entries of a list `Value` that are strings (decoded canonical
documents carry signer identities as strings; non-string entries do not occur
in the payloads the claims quantify over). -/
def Value.strEntries : Value → List String
  | .list xs => xs.toList.filterMap Value.asStr?
  | _ => []

/-- The error kinds surfaced by the handlers: `ValidationError`,
`PermissionDenied` (the spec's Unauthorized), `Http404` (NotFound), and
`crash` for an unhandled Python exception such as `UnboundLocalError` or
`KeyError`. -/
inductive Err where
  | validation : Err
  | unauthorized : Err
  | notFound : Err
  | crash (exc : String) : Err
deriving DecidableEq, Repr

/-- The external collaborators of `functions.py`: `canonical.to_canonical`,
`canonical.from_canonical`, `utils.hash_string` (SHA-256 hex digest of a
string) and `backend.verify` (signature verification returning validity and
the recovered signer id).  They are opaque to the core logic, so the
embedding takes them as a parameter. -/
structure Codec where
  toCanonical : Value → String
  fromCanonical : String → Value
  hashString : String → String
  verify : String → String → Option String → Bool × String

/-! ## Model-layer constants (`panoramix/models.py` is not under `src/`).
Modelled from the spec: status and box tags are string constants; the spec
gives Negotiation status {OPEN, DONE}, Peer status {READY, …}, Endpoint
(cycle) status {OPEN, FULL, CLOSED, PROCESSED} and message boxes
{INBOX, PROCESSBOX, ACCEPTED, OUTBOX}. -/

namespace models

def NegotiationStatus.OPEN : String := "OPEN"
def NegotiationStatus.DONE : String := "DONE"

def PeerStatus.READY : String := "READY"

def CycleStatus.OPEN : String := "OPEN"
def CycleStatus.FULL : String := "FULL"
def CycleStatus.CLOSED : String := "CLOSED"
def CycleStatus.PROCESSED : String := "PROCESSED"

def Box.INBOX : String := "INBOX"
def Box.PROCESSBOX : String := "PROCESSBOX"
def Box.ACCEPTED : String := "ACCEPTED"
def Box.OUTBOX : String := "OUTBOX"

end models

/-- A Contribution row: signer identity, proposed text, signature, and the
`latest` flag (the negotiation it belongs to is the list holding it). -/
structure Contribution where
  signer_key_id : String
  text : String
  signature : String
  latest : Bool
deriving DecidableEq, Repr

/-- A Signing row: the frozen (signer identity, signature) evidence attached
to a sealed negotiation. -/
structure Signing where
  signer_key_id : String
  signature : String
deriving DecidableEq, Repr

/-- A Negotiation row together with the Contribution and Signing rows it owns
(the spec's cascade ownership).  `text`, `consensus` and `timestamp` are
`none` until closure. -/
structure Negotiation where
  id : String
  status : String
  text : Option String
  consensus : Option String
  timestamp : Option String
  contributions : List Contribution
  signings : List Signing
deriving DecidableEq, Repr

/-- Modelled from the spec: `negotiation.get_latest_contributions()`
(defined in `panoramix/models.py`, not under `src/`) returns the
contributions whose `latest` flag is set. -/
def Negotiation.get_latest_contributions (neg : Negotiation) : List Contribution :=
  neg.contributions.filter (·.latest)

/-- An Owner row: `owner_key_id` is an owner of peer `peer_id`. -/
structure Owner where
  peer_id : String
  owner_key_id : String
deriving DecidableEq, Repr

/-- A Peer row (its owners live in the `Owner` table). -/
structure Peer where
  peer_id : String
  status : String
deriving DecidableEq, Repr

/-- Modelled from the spec: `peer.list_owners()` (in `panoramix/models.py`,
not under `src/`) returns the owner identities recorded for the peer. -/
def Peer.list_owners (owners : List Owner) (peer : Peer) : List String :=
  (owners.filter (fun o => o.peer_id == peer.peer_id)).map (·.owner_key_id)

/-- An Endpoint row.  Modelled from the spec where `models.py` is missing:
`log_consensus` records the authorizing consensus id as the endpoint's last
consensus pointer, read back by `get_last_consensus_id`. -/
structure Endpoint where
  endpoint_id : String
  peer_id : String
  status : String
  size_min : Nat
  size_max : Nat
  inbox_hash : Option String
  outbox_hash : Option String
  process_proof : Option Value
  last_consensus_id : Option Value
deriving DecidableEq, Repr

/-- Modelled from the spec: `endpoint.log_consensus(consensus_id)` records
the consensus id that authorized the latest change. -/
def Endpoint.log_consensus (e : Endpoint) (consensus_id : Value) : Endpoint :=
  { e with last_consensus_id := some consensus_id }

/-- Modelled from the spec: `endpoint.get_last_consensus_id()` returns the
recorded pointer (`None` when no consensus was ever logged). -/
def Endpoint.get_last_consensus_id (e : Endpoint) : Value :=
  (e.last_consensus_id).getD Value.null

/-- A Message row. -/
structure Message where
  endpoint_id : String
  sender : String
  recipient : String
  text : String
  message_hash : String
  box : String
deriving DecidableEq, Repr

/-- Lexicographic comparison of character lists by code point, the order
Python's `sorted` uses on strings. -/
def charListLe : List Char → List Char → Bool
  | [], _ => true
  | _ :: _, [] => false
  | c :: cs, d :: ds =>
    if c.val < d.val then true
    else if d.val < c.val then false
    else charListLe cs ds

/-- String comparison by code points. -/
def strLe (s t : String) : Bool := charListLe s.data t.data

/-- Insert a string into an ascending list, keeping it ascending. -/
def insertSorted (x : String) : List String → List String
  | [] => [x]
  | y :: ys => if strLe x y then x :: y :: ys else y :: insertSorted x ys

/-- Sorting a list of strings ascending (Python `sorted`), as an insertion
sort. -/
def sortStrings (l : List String) : List String :=
  l.foldr insertSorted []

/-- A database string-or-NULL field as the Python value it compares as. -/
def optStrValue : Option String → Value
  | some s => .str s
  | none => .null

/-- Python `d[key]` on a request payload expected to hold a string: an absent
key raises `KeyError` and a non-string where a string is consumed raises a
`TypeError` downstream; both are unhandled crashes. -/
def reqItemStr (v : Value) (key : String) : Except Err String :=
  match v.get? key with
  | some (.str s) => .ok s
  | some _ => .error (.crash "TypeError")
  | none => .error (.crash "KeyError")

/-! ## NegotiationEngine: `contribute_to_negotiation`, closure, sealing -/

/-- `get_text(contributions)`: the unique text among the contributions; the
`assert len(texts) == 1` failure is an unhandled crash. -/
def get_text (contributions : List Contribution) : Except Err String :=
  match (contributions.map (·.text)).eraseDups with
  | [t] => .ok t
  | _ => .error (.crash "AssertionError")

/-- Python dict assignment `d[k] = v`: overwrite in place when the key
exists, else append the new entry. -/
def insertSig (d : List (String × String)) (k v : String) :
    List (String × String) :=
  if (d.find? (fun e => e.1 == k)).isSome then
    d.map (fun e => if e.1 == k then (k, v) else e)
  else d ++ [(k, v)]

/-- `mk_signings(negotiation, contributions)`: one Signing row per
contribution (bulk-created), plus the signer-id → signature dict. -/
def mk_signings (contributions : List Contribution) :
    List Signing × List (String × String) :=
  contributions.foldl
    (fun acc c =>
      (acc.1 ++ [⟨c.signer_key_id, c.signature⟩],
       insertSig acc.2 c.signer_key_id c.signature))
    ([], [])

/-- `_close_negotiation(negotiation, contributions)`: seal the negotiation —
set its text to the unanimous text, freeze the Signing rows, hash the
canonical encoding of `{timestamp, negotiation_id, text, signings}`, set
status DONE.  `now` is the sealing instant's `isoformat()` string. -/
def _close_negotiation (C : Codec) (now : String) (neg : Negotiation)
    (contributions : List Contribution) : Except Err Negotiation := do
  let t ← get_text contributions
  let pair := mk_signings contributions
  let hashable := Value.mkDict [
    ("timestamp", .str now),
    ("negotiation_id", .str neg.id),
    ("text", .str t),
    ("signings", Value.mkDict (pair.2.map (fun e => (e.1, Value.str e.2))))]
  let consensus := C.hashString (C.toCanonical hashable)
  return { neg with
    text := some t,
    signings := neg.signings ++ pair.1,
    timestamp := some now,
    consensus := some consensus,
    status := models.NegotiationStatus.DONE }

/-- `check_close_negotiation(negotiation)`: when all latest contributions
carry one single text whose decoded `meta.accept` is truthy, seal. -/
def check_close_negotiation (C : Codec) (now : String) (neg : Negotiation) :
    Except Err Negotiation :=
  let latests := neg.get_latest_contributions
  match (latests.map (·.text)).eraseDups with
  | [t] =>
    let unpacked := C.fromCanonical t
    let meta := unpacked.getD "meta" (Value.mkDict [])
    let accept := meta.getD "accept" (Value.bool false)
    if accept.truthy then _close_negotiation C now neg latests
    else .ok neg
  | _ => .ok neg

/-- `contribute_to_negotiation(negotiation, request, key_data)`: reject a
non-OPEN negotiation, verify the signature and the claimed signer, clear the
signer's previous `latest` flags, insert the new latest contribution, then
evaluate closure.  Returns the updated negotiation with the new
contribution. -/
def contribute_to_negotiation (C : Codec) (now : String) (neg : Negotiation)
    (request : Value) (key_data : Option String) :
    Except Err (Negotiation × Contribution) := do
  if neg.status ≠ models.NegotiationStatus.OPEN then
    throw .validation
  let text ← reqItemStr request "text"
  let signature ← reqItemStr request "signature"
  let signer_key_id ← reqItemStr request "signer_key_id"
  let vr := C.verify text signature key_data
  if !vr.1 then
    throw .unauthorized
  if signer_key_id ≠ vr.2 then
    throw .unauthorized
  let key_id := vr.2
  let cleared := neg.contributions.map
    (fun c => if c.signer_key_id == key_id then { c with latest := false } else c)
  let contrib : Contribution :=
    { signer_key_id := key_id, text := text, signature := signature, latest := true }
  let neg2 := { neg with contributions := cleared ++ [contrib] }
  let neg3 ← check_close_negotiation C now neg2
  return (neg3, contrib)

/-! ## ConsensusAuthorizer: `retrieve_consensus` … `handle_consensus` -/

/-- The dict a sealed negotiation exposes for authorization. -/
structure ConsensusDict where
  text : String
  signings : List (String × String)
deriving DecidableEq, Repr

/-- Modelled from the spec: `negotiation.to_consensus_dict()` (in
`panoramix/models.py`, not under `src/`) exposes the sealed negotiation's
frozen text and the signer-id → signature mapping of its Signing rows. -/
def Negotiation.to_consensus_dict (neg : Negotiation) : ConsensusDict :=
  { text := neg.text.getD "",
    signings := neg.signings.map (fun s => (s.signer_key_id, s.signature)) }

/-- `retrieve_consensus(consensus_id)`: the negotiation sealed with that
consensus hash, or `Http404`. -/
def retrieve_consensus (negs : List Negotiation) (consensus_id : Value) :
    Except Err ConsensusDict :=
  match negs.find? (fun n => optStrValue n.consensus == consensus_id) with
  | some n => .ok n.to_consensus_dict
  | none => .error .notFound

/-- `get_body_and_meta(consensus)`: decode the frozen text, canonically
re-encode its `body`, return that encoding with the `meta` dict. -/
def get_body_and_meta (C : Codec) (consensus : ConsensusDict) :
    String × Value :=
  let unpacked := C.fromCanonical consensus.text
  let body := unpacked.getD "body" (Value.mkDict [])
  let canonical_body := C.toCanonical body
  let meta := unpacked.getD "meta" (Value.mkDict [])
  (canonical_body, meta)

/-- `check_all_signed(signings, meta)`: when `meta.signers` is a non-empty
list, the sorted signer list must equal the sorted list of recorded signing
keys, else `ValidationError`. -/
def check_all_signed (signings : List (String × String)) (meta : Value) :
    Except Err Unit :=
  let signers := (meta.getD "signers" (Value.mkList [])).strEntries
  let actual_signers := signings.map (·.1)
  if !signers.isEmpty && sortStrings signers ≠ sortStrings actual_signers then
    .error .validation
  else .ok ()

/-- `check_bodies_equal(expected_body, consensus_body)`: `ValidationError`
when the canonical encodings differ. -/
def check_bodies_equal (expected_body consensus_body : String) :
    Except Err Unit :=
  if expected_body ≠ consensus_body then .error .validation else .ok ()

/-- `check_accepted(meta)`: `ValidationError` unless `meta.accept` is
truthy. -/
def check_accepted (meta : Value) : Except Err Unit :=
  if !(meta.getD "accept" (Value.bool false)).truthy then .error .validation
  else .ok ()

/-- `handle_consensus(expected_body, consensus_id)`: retrieve the sealed
consensus, require body equality, acceptance, and a proper signer set;
return the signer-id → signature mapping. -/
def handle_consensus (C : Codec) (negs : List Negotiation)
    (expected_body : String) (consensus_id : Value) :
    Except Err (List (String × String)) := do
  let consensus ← retrieve_consensus negs consensus_id
  let signings := consensus.signings
  let bm := get_body_and_meta C consensus
  check_bodies_equal expected_body bm.1
  check_accepted bm.2
  check_all_signed signings bm.2
  return signings

/-! ## Request envelope helpers -/

/-- `validate_operation(info, operation, resource)`: the request's
`info.operation` and `info.resource` must match the invoked endpoint. -/
def validate_operation (info : Value) (operation resource : String) :
    Except Err Unit :=
  if Value.str operation ≠ info.getD "operation" Value.null then
    .error .validation
  else if Value.str resource ≠ info.getD "resource" Value.null then
    .error .validation
  else .ok ()

/-- The structural consensus type tag. -/
def T_STRUCTURAL : String := "structural"

/-- `get_requested_consensus_body(request_data)`: the canonical encoding of
`{data, info}` as submitted. -/
def get_requested_consensus_body (C : Codec) (request_data : Value) : String :=
  C.toCanonical (Value.mkDict [
    ("data", (request_data.get? "data").getD Value.null),
    ("info", (request_data.get? "info").getD Value.null)])

/-- `require_by_consensus(request)`: reject a missing/falsy `by_consensus`,
reject a missing `consensus_id`; the local `consensus_body` is assigned only
when `consensus_type == "structural"`, so any other type reaches the
`return` with the local unassigned — an `UnboundLocalError` crash, embedded
as `Err.crash`. -/
def require_by_consensus (C : Codec) (request_data : Value) :
    Except Err (Value × String) :=
  let by_consensus := request_data.getD "by_consensus" (Value.mkDict [])
  if !by_consensus.truthy then .error .unauthorized
  else
    match by_consensus.get? "consensus_id" with
    | none => .error .validation
    | some .null => .error .validation
    | some consensus_id =>
      let consensus_type := by_consensus.get? "consensus_type"
      if consensus_type = some (Value.str T_STRUCTURAL) then
        .ok (consensus_id, get_requested_consensus_body C request_data)
      else .error (.crash "UnboundLocalError")

/-! ## `assert_consensus_signed` and `check_permission` -/

/-- Lookup in a signer-id → signature mapping (a Python dict embedded as an
association list, first match wins). -/
def lookupSig (signings : List (String × String)) (key : String) : Option String :=
  (signings.find? (fun e => e.1 == key)).map (·.2)

/-- `assert_consensus_signed(owners, signings)`: `PermissionDenied` when the
mapping is empty, and `PermissionDenied` when some owner has no signature
recorded. -/
def assert_consensus_signed (owners : List String)
    (signings : List (String × String)) : Except Err Unit :=
  if signings.isEmpty then .error .unauthorized
  else if owners.all (fun owner => (lookupSig signings owner).isSome) then .ok ()
  else .error .unauthorized

/-- `check_permission(peer_id, owners, signings, request_peer_id)`: with
owners declared, the requester must be an owner and every owner must have
signed; with no owners, the requester must be the subject peer itself and
must have signed. -/
def check_permission (peer_id : String) (owners : List String)
    (signings : List (String × String)) (request_peer_id : String) :
    Except Err Unit :=
  if !owners.isEmpty then
    if !owners.contains request_peer_id then .error .unauthorized
    else assert_consensus_signed owners signings
  else
    if request_peer_id != peer_id then .error .unauthorized
    else assert_consensus_signed [request_peer_id] signings

/-! ## EndpointCycle: transitions -/

/-- `[d["hash"] for d in data.get("message_hashes", [])]`: the submitted
hash strings; a malformed payload (non-list, entry without a string `hash`)
is an unhandled crash. -/
def extractHashes (data : Value) : Except Err (List String) :=
  match data.getD "message_hashes" (Value.mkList []) with
  | .list xs => xs.toList.mapM (fun d => reqItemStr d "hash")
  | _ => .error (.crash "TypeError")

/-- `compute_messages_hash(msg_hashes)`: the hex digest of the concatenation
of the sorted distinct hashes (`sorted(set(msg_hashes))`). -/
def compute_messages_hash (C : Codec) (msg_hashes : List String) : String :=
  C.hashString (String.join (sortStrings msg_hashes.eraseDups))

/-- Membership of a message in the queryset
`filter(message_hash__in=hashes, endpoint_id=…, box=…)`. -/
def msgSelected (hashes : List String) (endpoint_id box : String)
    (m : Message) : Bool :=
  hashes.contains m.message_hash && m.endpoint_id == endpoint_id
    && m.box == box

/-- `close_endpoint(endpoint, data)`: requires status OPEN or FULL, resolves
the submitted hashes against INBOX messages of this endpoint, requires the
resolved count to equal the submitted count and to lie within
`[size_min, size_max]`, commits the inbox hash, sets status CLOSED and moves
the matched messages INBOX → ACCEPTED. -/
def close_endpoint (C : Codec) (msgs : List Message) (endpoint : Endpoint)
    (data : Value) : Except Err (Endpoint × List Message) := do
  let current_status := endpoint.status
  if !(current_status == models.CycleStatus.OPEN
      || current_status == models.CycleStatus.FULL) then
    throw .unauthorized
  let message_hashes ← extractHashes data
  let message_hashes_count := message_hashes.length
  let isSel := msgSelected message_hashes endpoint.endpoint_id models.Box.INBOX
  let inbox_count := (msgs.filter isSel).length
  if message_hashes_count ≠ inbox_count then
    throw .unauthorized
  if inbox_count < endpoint.size_min then
    throw .unauthorized
  if inbox_count > endpoint.size_max then
    throw .unauthorized
  let inbox_hash := compute_messages_hash C message_hashes
  let endpoint2 := { endpoint with
    inbox_hash := some inbox_hash, status := models.CycleStatus.CLOSED }
  let msgs2 := msgs.map
    (fun m => if isSel m then { m with box := models.Box.ACCEPTED } else m)
  return (endpoint2, msgs2)

/-- `record_endpoint_process(endpoint, data)`: resolves the submitted hashes
against PROCESSBOX messages of this endpoint, requires only the count match
(no current-status check, no size bounds), stores the process proof and the
outbox hash, sets status PROCESSED and moves the matched messages
PROCESSBOX → OUTBOX. -/
def record_endpoint_process (C : Codec) (msgs : List Message)
    (endpoint : Endpoint) (data : Value) :
    Except Err (Endpoint × List Message) := do
  let process_proof := data.getD "process_proof" Value.null
  let message_hashes ← extractHashes data
  let message_hashes_count := message_hashes.length
  let isSel :=
    msgSelected message_hashes endpoint.endpoint_id models.Box.PROCESSBOX
  let count := (msgs.filter isSel).length
  if message_hashes_count ≠ count then
    throw .unauthorized
  let outbox_hash := compute_messages_hash C message_hashes
  let endpoint2 := { endpoint with
    process_proof := some process_proof,
    outbox_hash := some outbox_hash,
    status := models.CycleStatus.PROCESSED }
  let msgs2 := msgs.map
    (fun m => if isSel m then { m with box := models.Box.OUTBOX } else m)
  return (endpoint2, msgs2)

/-- `apply_transition(endpoint, data, consensus_id)`: dispatch on the
requested status (CLOSED → `close_endpoint`, PROCESSED →
`record_endpoint_process`, else `ValidationError`), then log the authorizing
consensus id. -/
def apply_transition (C : Codec) (msgs : List Message) (endpoint : Endpoint)
    (data : Value) (consensus_id : Value) :
    Except Err (Endpoint × List Message) := do
  let requested_status := data.getD "status" Value.null
  if requested_status = Value.str models.CycleStatus.CLOSED then
    let r ← close_endpoint C msgs endpoint data
    return (r.1.log_consensus consensus_id, r.2)
  else if requested_status = Value.str models.CycleStatus.PROCESSED then
    let r ← record_endpoint_process C msgs endpoint data
    return (r.1.log_consensus consensus_id, r.2)
  else
    throw .validation

/-! ## The endpoint partial-update handler -/

/-- The authenticated request as the handlers see it: the requesting peer
identity (`request.user.peer_id`), the authentication key material
(`request.auth`) and the parsed payload (`request.data`). -/
structure Request where
  user_peer_id : String
  auth : Option String
  data : Value

/-- `EndpointView.partial_update_logic(request, endpoint)`: validate the
envelope, extract the consensus reference, require a matching
`info.on_last_consensus_id` (the optimistic-concurrency guard), check the
endpoint id, authorize through `handle_consensus` and `check_permission`,
then apply the transition. -/
def EndpointView.partial_update_logic (C : Codec) (negs : List Negotiation)
    (peers : List Peer) (owners : List Owner) (msgs : List Message)
    (request : Request) (endpoint : Endpoint) :
    Except Err (Endpoint × List Message) := do
  let request_user := request.user_peer_id
  let request_data := request.data
  let data := request_data.getD "data" (Value.mkDict [])
  let info := request_data.getD "info" (Value.mkDict [])
  validate_operation info "partial_update" "endpoint"
  let rc ← require_by_consensus C request_data
  let consensus_id := rc.1
  let consensus_body := rc.2
  let on_last_consensus_id := info.getD "on_last_consensus_id" Value.null
  if on_last_consensus_id = Value.null then
    throw .unauthorized
  let endpoint_id ← match info.get? "id" with
    | some v => pure v
    | none => throw (Err.crash "KeyError")
  if Value.str endpoint.endpoint_id ≠ endpoint_id then
    throw .unauthorized
  let last_consensus_id := endpoint.get_last_consensus_id
  if last_consensus_id ≠ on_last_consensus_id then
    throw .unauthorized
  let signings ← handle_consensus C negs consensus_body consensus_id
  let peer_id := endpoint.peer_id
  let peer ← match peers.find? (fun p => p.peer_id == peer_id) with
    | some p => pure p
    | none => throw Err.notFound
  if peer.status ≠ models.PeerStatus.READY then
    throw .unauthorized
  let ownerIds := peer.list_owners owners
  check_permission peer_id ownerIds signings request_user
  apply_transition C msgs endpoint data consensus_id

/-! ## Message admission -/

/-- `check_is_owner(endpoint, request_user_id)`: whether the requester is
the endpoint's peer or a recorded owner of that peer.  Note this returns a
boolean — it raises nothing. -/
def check_is_owner (owners : List Owner) (endpoint : Endpoint)
    (request_user_id : String) : Bool :=
  endpoint.peer_id == request_user_id
    || owners.any (fun o =>
        o.peer_id == endpoint.peer_id && o.owner_key_id == request_user_id)

/-- `check_cycle_is_open(endpoint)`: `PermissionDenied` unless the cycle
status is OPEN. -/
def check_cycle_is_open (endpoint : Endpoint) : Except Err Unit :=
  if endpoint.status ≠ models.CycleStatus.OPEN then .error .unauthorized
  else .ok ()

/-- `check_cycle_can_process(endpoint)`: `PermissionDenied` unless the cycle
status is CLOSED. -/
def check_cycle_can_process (endpoint : Endpoint) : Except Err Unit :=
  if endpoint.status ≠ models.CycleStatus.CLOSED then .error .unauthorized
  else .ok ()

/-- `hash_message(text, sender, recipient)`: the hex digest of the bare
concatenation of the three fields — no separator between them. -/
def hash_message (C : Codec) (text sender recipient : String) : String :=
  C.hashString (text ++ sender ++ recipient)

/-- A payload string field read with `.get` and then consumed where a string
is required (fed to the hasher or stored in a text column); a missing or
non-string value is an unhandled crash downstream. -/
def getStrOrCrash (data : Value) (key : String) : Except Err String :=
  match data.getD key Value.null with
  | .str s => .ok s
  | _ => .error (.crash "TypeError")

/-- `MessageView.perform_create(data)`: compute the content hash, verify a
caller-supplied expected hash when present, create the message row. -/
def MessageView.perform_create (C : Codec) (msgs : List Message)
    (data : Value) : Except Err (Message × List Message) := do
  let box ← getStrOrCrash data "box"
  let endpoint_id ← getStrOrCrash data "endpoint_id"
  let text ← getStrOrCrash data "text"
  let sender ← getStrOrCrash data "sender"
  let recipient ← getStrOrCrash data "recipient"
  let computed_hash := hash_message C text sender recipient
  let requested_hash := data.getD "message_hash" Value.null
  if requested_hash ≠ Value.null
      ∧ requested_hash ≠ Value.str computed_hash then
    throw .validation
  let message : Message :=
    { endpoint_id := endpoint_id, sender := sender, recipient := recipient,
      text := text, message_hash := computed_hash, box := box }
  return (message, msgs ++ [message])

/-- `MessageView.creation_logic(request)`: validate the envelope, load the
endpoint, gate on the box (INBOX needs an OPEN cycle; PROCESSBOX needs a
CLOSED cycle and calls `check_is_owner`, whose boolean result the source
discards; any other box is denied), then create the message. -/
def MessageView.creation_logic (C : Codec) (endpoints : List Endpoint)
    (owners : List Owner) (msgs : List Message) (request : Request) :
    Except Err (Message × List Message) := do
  let request_data := request.data
  let request_user := request.user_peer_id
  let data := request_data.getD "data" (Value.mkDict [])
  let info := request_data.getD "info" (Value.mkDict [])
  validate_operation info "create" "message"
  let endpoint_id := data.getD "endpoint_id" Value.null
  let box := data.getD "box" Value.null
  let endpoint ← match endpoints.find?
      (fun e => Value.str e.endpoint_id == endpoint_id) with
    | some e => pure e
    | none => throw Err.notFound
  if box = Value.str models.Box.INBOX then
    check_cycle_is_open endpoint
  else if box = Value.str models.Box.PROCESSBOX then do
    check_cycle_can_process endpoint
    let _ok := check_is_owner owners endpoint request_user
    pure ()
  else
    throw .unauthorized
  MessageView.perform_create C msgs data

/-! ## Concrete fixtures used by witnesses and counterexamples -/

/-- A concrete codec instance: hashing prefixes `H:`, canonical encoding is
constant, decoding gives `None`, verification rejects. -/
def trivialCodec : Codec :=
  { toCanonical := fun _ => "CANON",
    fromCanonical := fun _ => Value.null,
    hashString := fun s => "H:" ++ s,
    verify := fun _ _ _ => (false, "") }

/-- An endpoint that has already reached the terminal status PROCESSED. -/
def processedEndpoint : Endpoint :=
  { endpoint_id := "e1", peer_id := "p1",
    status := models.CycleStatus.PROCESSED,
    size_min := 1, size_max := 2, inbox_hash := none, outbox_hash := none,
    process_proof := none, last_consensus_id := none }

/-- An open endpoint accepting between 0 and 2 messages. -/
def openEndpoint : Endpoint :=
  { endpoint_id := "e0", peer_id := "p0",
    status := models.CycleStatus.OPEN,
    size_min := 0, size_max := 2, inbox_hash := none, outbox_hash := none,
    process_proof := none, last_consensus_id := none }

/-- A partial-update payload requesting the PROCESSED status with no message
hashes. -/
def processRequestData : Value :=
  Value.mkDict [("status", Value.str models.CycleStatus.PROCESSED)]

/-- A partial-update payload requesting the CLOSED status with no message
hashes. -/
def closeRequestData : Value :=
  Value.mkDict [("status", Value.str models.CycleStatus.CLOSED)]

/-! ## C1 — the endpoint cycle order -/

/-- C1 counterexample: the endpoint is already in the terminal status
PROCESSED, yet a partial-update transition request to PROCESSED (with an
empty hash list) succeeds — `record_endpoint_process` never looks at the
current status, so PROCESSED is not terminal and a transition to PROCESSED
does not require the current status to be CLOSED. -/
theorem transition_from_processed_succeeds :
    processedEndpoint.status = models.CycleStatus.PROCESSED ∧
    (apply_transition trivialCodec [] processedEndpoint processRequestData
      (Value.str "cid")).isOk = true :=
  ⟨rfl, rfl⟩

/-- C1 amended: a transition to CLOSED succeeds only when the current status
is OPEN or FULL (hence never once the endpoint is PROCESSED), while a
transition to PROCESSED performs no current-status check at all —
`record_endpoint_process` computes the same result whatever the current
status is. -/
theorem endpoint_cycle_amended (C : Codec) (msgs : List Message)
    (e : Endpoint) (data : Value) (cid : Value) :
    ((apply_transition C msgs e data cid).isOk = true →
      data.getD "status" Value.null = Value.str models.CycleStatus.CLOSED →
      e.status = models.CycleStatus.OPEN ∨ e.status = models.CycleStatus.FULL)
    ∧ (∀ s, record_endpoint_process C msgs { e with status := s } data =
        record_endpoint_process C msgs e data) := by
  constructor
  · intro hok hstat
    by_contra hcon
    push_neg at hcon
    have h1 : (e.status == models.CycleStatus.OPEN
        || e.status == models.CycleStatus.FULL) = false := by
      rw [Bool.or_eq_false_iff]
      exact ⟨beq_eq_false_iff_ne.mpr hcon.1, beq_eq_false_iff_ne.mpr hcon.2⟩
    have hclose : close_endpoint C msgs e data = .error Err.unauthorized := by
      simp [close_endpoint, h1, throw, throwThe, MonadExceptOf.throw,
        Bind.bind, Except.bind]
    have happ : apply_transition C msgs e data cid =
        .error Err.unauthorized := by
      simp [apply_transition, hstat, hclose, Bind.bind, Except.bind]
    rw [happ] at hok
    exact absurd hok (by simp [Except.isOk, Except.toBool])
  · intro s
    rfl

/-- C1 amended, witness: from the OPEN endpoint a transition to CLOSED does
succeed, and the amended theorem then places the pre-state in
OPEN-or-FULL. -/
theorem endpoint_cycle_amended_witness :
    (apply_transition trivialCodec [] openEndpoint closeRequestData
      (Value.str "c")).isOk = true ∧
    (openEndpoint.status = models.CycleStatus.OPEN ∨
      openEndpoint.status = models.CycleStatus.FULL) :=
  ⟨rfl, (endpoint_cycle_amended trivialCodec [] openEndpoint closeRequestData
    (Value.str "c")).1 rfl rfl⟩

/-! ## C2 — PROCESSBOX admission and the discarded owner check -/

/-- An endpoint of peer "p" whose cycle is CLOSED. -/
def closedEndpoint : Endpoint :=
  { endpoint_id := "e2", peer_id := "p",
    status := models.CycleStatus.CLOSED,
    size_min := 1, size_max := 2, inbox_hash := none, outbox_hash := none,
    process_proof := none, last_consensus_id := none }

/-- A message-creation request by user "q" targeting box PROCESSBOX of
endpoint "e2". -/
def intruderRequest : Request :=
  { user_peer_id := "q", auth := none,
    data := Value.mkDict [
      ("data", Value.mkDict [
        ("endpoint_id", Value.str "e2"),
        ("box", Value.str models.Box.PROCESSBOX),
        ("text", Value.str "t"), ("sender", Value.str "s"),
        ("recipient", Value.str "r")]),
      ("info", Value.mkDict [
        ("operation", Value.str "create"),
        ("resource", Value.str "message")])] }

/-- C2 (code bug): endpoint "e2" is CLOSED and belongs to peer "p" with no
recorded owners; requester "q" is neither the peer nor an owner
(`check_is_owner` returns false), yet the PROCESSBOX message IS created —
the call site discards `check_is_owner`'s boolean result instead of denying
the request. -/
theorem processbox_admission_ignores_owner_check :
    check_is_owner [] closedEndpoint "q" = false ∧
    closedEndpoint.status = models.CycleStatus.CLOSED ∧
    (MessageView.creation_logic trivialCodec [closedEndpoint] [] []
      intruderRequest).isOk = true :=
  ⟨rfl, rfl, rfl⟩

/-! ## C3 — what `close_endpoint` rejects -/

/-- Helper: a resolved-count mismatch makes `close_endpoint` fail. -/
theorem close_endpoint_count_mismatch (C : Codec) (msgs : List Message)
    (e : Endpoint) (data : Value) (hashes : List String)
    (hex : extractHashes data = .ok hashes)
    (hcount : hashes.length ≠
      (msgs.filter (msgSelected hashes e.endpoint_id
        models.Box.INBOX)).length) :
    (close_endpoint C msgs e data).isOk = false := by
  cases hst : (e.status == models.CycleStatus.OPEN
      || e.status == models.CycleStatus.FULL) with
  | false =>
    simp [close_endpoint, hst, throw, throwThe, MonadExceptOf.throw,
      Bind.bind, Except.bind, Except.isOk, Except.toBool]
  | true =>
    simp [close_endpoint, hst, hex, hcount, throw, throwThe,
      MonadExceptOf.throw, Bind.bind, Except.bind, Pure.pure, Except.pure,
      Except.isOk, Except.toBool]

/-- Helper: a submitted count outside the size bounds makes `close_endpoint`
fail (via the count-mismatch rejection or, when the counts agree, via one of
the two bounds rejections). -/
theorem close_endpoint_out_of_bounds (C : Codec) (msgs : List Message)
    (e : Endpoint) (data : Value) (hashes : List String)
    (hex : extractHashes data = .ok hashes)
    (hb : hashes.length < e.size_min ∨ e.size_max < hashes.length) :
    (close_endpoint C msgs e data).isOk = false := by
  by_cases hcount : hashes.length =
      (msgs.filter (msgSelected hashes e.endpoint_id
        models.Box.INBOX)).length
  · cases hst : (e.status == models.CycleStatus.OPEN
        || e.status == models.CycleStatus.FULL) with
    | false =>
      simp [close_endpoint, hst, throw, throwThe, MonadExceptOf.throw,
        Bind.bind, Except.bind, Except.isOk, Except.toBool]
    | true =>
      rcases hb with hb | hb
      · simp [close_endpoint, hst, hex, ← hcount, hb, throw, throwThe,
          MonadExceptOf.throw, Bind.bind, Except.bind, Pure.pure,
          Except.pure, Except.isOk, Except.toBool]
      · simp [close_endpoint, hst, hex, ← hcount, hb, throw, throwThe,
          MonadExceptOf.throw, Bind.bind, Except.bind, Pure.pure,
          Except.pure, Except.isOk, Except.toBool]
  · exact close_endpoint_count_mismatch C msgs e data hashes hex hcount

/-- Helper: when the endpoint's INBOX hashes are pairwise distinct and the
duplicate-free submission contains a hash absent from that INBOX, the
resolved count falls short and `close_endpoint` fails. -/
theorem close_endpoint_unknown_hash (C : Codec) (msgs : List Message)
    (e : Endpoint) (data : Value) (hashes : List String)
    (hex : extractHashes data = .ok hashes)
    (hnodup : hashes.Nodup)
    (hinodup : ((msgs.filter (fun m => m.endpoint_id == e.endpoint_id
      && m.box == models.Box.INBOX)).map
        (fun m => m.message_hash)).Nodup)
    (h : String) (hmem : h ∈ hashes)
    (habs : h ∉ (msgs.filter (fun m => m.endpoint_id == e.endpoint_id
      && m.box == models.Box.INBOX)).map (fun m => m.message_hash)) :
    (close_endpoint C msgs e data).isOk = false := by
  apply close_endpoint_count_mismatch C msgs e data hashes hex
  set inboxMsgs := msgs.filter (fun m => m.endpoint_id == e.endpoint_id
    && m.box == models.Box.INBOX) with hinbox
  have hself : msgs.filter (msgSelected hashes e.endpoint_id
      models.Box.INBOX)
      = inboxMsgs.filter (fun m => hashes.contains m.message_hash) := by
    rw [hinbox, List.filter_filter]
    apply List.filter_congr
    intro m _
    cases hc : hashes.contains m.message_hash <;>
      cases he : (m.endpoint_id == e.endpoint_id) <;>
        cases hbx : (m.box == models.Box.INBOX) <;>
          simp only [msgSelected, hc, he, hbx, Bool.and_true, Bool.true_and,
            Bool.and_false, Bool.false_and, Bool.and_self]
  rw [hself]
  set selected := inboxMsgs.filter (fun m => hashes.contains m.message_hash)
    with hseldef
  have hsubl : (selected.map (fun m => m.message_hash)).Sublist
      (inboxMsgs.map (fun m => m.message_hash)) :=
    (List.filter_sublist inboxMsgs).map _
  have hnodupSel : (selected.map (fun m => m.message_hash)).Nodup :=
    List.Nodup.sublist hsubl hinodup
  have hsubset : (selected.map (fun m => m.message_hash))
      ⊆ hashes.erase h := by
    intro x hx
    obtain ⟨m, hmsel, hmx⟩ := List.mem_map.mp hx
    have hm2 := List.mem_filter.mp hmsel
    have hxh : x ∈ hashes := by
      rw [← hmx]
      exact List.elem_iff.mp hm2.2
    have hxne : x ≠ h := by
      intro hxeq
      apply habs
      rw [← hxeq, ← hmx]
      exact List.mem_map.mpr ⟨m, hm2.1, rfl⟩
    exact (List.Nodup.mem_erase_iff hnodup).mpr ⟨hxne, hxh⟩
  have h1 : (selected.map (fun m => m.message_hash)).length ≤
      (hashes.erase h).length :=
    (List.subperm_of_subset hnodupSel hsubset).length_le
  have h2 : (hashes.erase h).length = hashes.length - 1 :=
    List.length_erase_of_mem hmem
  have h3 : 0 < hashes.length := List.length_pos.mpr (List.ne_nil_of_mem hmem)
  simp only [List.length_map] at h1
  omega

/-- C3 amended: `close_endpoint` rejects whenever the resolved INBOX count
differs from the submitted count, and whenever the submitted count lies
outside [size_min, size_max]; a submitted hash absent from the endpoint's
INBOX forces rejection provided the INBOX hashes are pairwise distinct and
the submission is duplicate-free — with a duplicated INBOX hash an unknown
hash can slip through the count check (see the counterexample). -/
theorem close_endpoint_rejects (C : Codec) (msgs : List Message)
    (e : Endpoint) (data : Value) (hashes : List String)
    (hex : extractHashes data = .ok hashes) :
    ((hashes.length ≠ (msgs.filter (msgSelected hashes e.endpoint_id
        models.Box.INBOX)).length) →
      (close_endpoint C msgs e data).isOk = false)
    ∧ ((hashes.length < e.size_min ∨ e.size_max < hashes.length) →
      (close_endpoint C msgs e data).isOk = false)
    ∧ (hashes.Nodup →
      ((msgs.filter (fun m => m.endpoint_id == e.endpoint_id
        && m.box == models.Box.INBOX)).map
          (fun m => m.message_hash)).Nodup →
      ∀ h ∈ hashes,
        h ∉ (msgs.filter (fun m => m.endpoint_id == e.endpoint_id
          && m.box == models.Box.INBOX)).map (fun m => m.message_hash) →
      (close_endpoint C msgs e data).isOk = false) :=
  ⟨fun hcount => close_endpoint_count_mismatch C msgs e data hashes hex hcount,
   fun hb => close_endpoint_out_of_bounds C msgs e data hashes hex hb,
   fun hnd hind h hm ha =>
     close_endpoint_unknown_hash C msgs e data hashes hex hnd hind h hm ha⟩

/-- An open endpoint with size bounds [1, 3], used by the C3 theorems. -/
def dupHashEndpoint : Endpoint :=
  { endpoint_id := "e3", peer_id := "p",
    status := models.CycleStatus.OPEN,
    size_min := 1, size_max := 3, inbox_hash := none, outbox_hash := none,
    process_proof := none, last_consensus_id := none }

/-- An INBOX message of endpoint "e3" with content hash "a". -/
def dupMsg1 : Message :=
  { endpoint_id := "e3", sender := "s", recipient := "r", text := "t1",
    message_hash := "a", box := models.Box.INBOX }

/-- A second, different INBOX message of endpoint "e3" with the same content
hash "a" (two distinct messages can share a hash, cf. `hash_message`). -/
def dupMsg2 : Message :=
  { endpoint_id := "e3", sender := "s", recipient := "r", text := "t2",
    message_hash := "a", box := models.Box.INBOX }

/-- A close payload submitting the hash list ["a", "b"]. -/
def staleCloseData : Value :=
  Value.mkDict [("message_hashes", Value.mkList [
    Value.mkDict [("hash", Value.str "a")],
    Value.mkDict [("hash", Value.str "b")]])]

/-- C3 counterexample: endpoint "e3" holds two INBOX messages both of hash
"a"; the submission ["a", "b"] contains the hash "b", which belongs to no
message at all — yet the resolved count is 2 = the submitted count, the
bounds pass, and close succeeds. -/
theorem close_endpoint_accepts_unknown_hash :
    (close_endpoint trivialCodec [dupMsg1, dupMsg2] dupHashEndpoint
      staleCloseData).isOk = true ∧
    extractHashes staleCloseData = .ok ["a", "b"] ∧
    ([dupMsg1, dupMsg2].all (fun m => m.message_hash != "b")) = true :=
  ⟨rfl, rfl, rfl⟩

/-- C3 witness: with no messages at all, the submission ["a", "b"] resolves
to 0 ≠ 2 and close fails. -/
theorem close_endpoint_rejects_witness :
    extractHashes staleCloseData = .ok ["a", "b"] ∧
    (close_endpoint trivialCodec [] dupHashEndpoint
      staleCloseData).isOk = false :=
  ⟨rfl, (close_endpoint_rejects trivialCodec [] dupHashEndpoint
    staleCloseData ["a", "b"] rfl).1 (by decide)⟩

/-! ## C4 — the signer-set check of `handle_consensus` -/

/-- C4 amended: for a sealed consensus whose decoded `meta.signers` is a
non-empty list, authorize fails — with Validation, not Unauthorized — unless
the sorted list of recorded signer identities equals the sorted
`meta.signers` list: a multiset comparison, so order in the list is
irrelevant but duplicate entries are not; when `meta.signers` is empty or
absent, no signer-set check is performed and (bodies equal, text accepted)
the signer mapping is returned. -/
theorem handle_consensus_signer_check (C : Codec) (negs : List Negotiation)
    (expected_body : String) (cid : Value) (consensus : ConsensusDict)
    (hret : retrieve_consensus negs cid = .ok consensus) :
    ((((get_body_and_meta C consensus).2.getD "signers"
        (Value.mkList [])).strEntries ≠ []) →
      sortStrings ((get_body_and_meta C consensus).2.getD "signers"
        (Value.mkList [])).strEntries
        ≠ sortStrings (consensus.signings.map (fun e => e.1)) →
      handle_consensus C negs expected_body cid = .error Err.validation)
    ∧ ((((get_body_and_meta C consensus).2.getD "signers"
        (Value.mkList [])).strEntries = []) →
      expected_body = (get_body_and_meta C consensus).1 →
      ((get_body_and_meta C consensus).2.getD "accept"
        (Value.bool false)).truthy = true →
      handle_consensus C negs expected_body cid = .ok consensus.signings) := by
  constructor
  · intro h1 h2
    have hio : (((get_body_and_meta C consensus).2.getD "signers"
        (Value.mkList [])).strEntries).isEmpty = false := by
      simp [List.isEmpty_iff, h1]
    simp only [handle_consensus, hret, check_bodies_equal, check_accepted,
      check_all_signed, hio, Bind.bind, Except.bind, Pure.pure, Except.pure]
    split_ifs <;> simp_all
  · intro h1 hbody hacc
    simp only [handle_consensus, hret, check_bodies_equal, check_accepted,
      check_all_signed, h1, Bind.bind, Except.bind, Pure.pure, Except.pure,
      hacc, ← hbody]
    split_ifs <;> simp_all

/-- A codec whose decoding of any sealed text yields an accepted body with
`meta.signers = ["a", "a"]` — the same identity listed twice. -/
def dupSignersCodec : Codec :=
  { toCanonical := fun _ => "B",
    fromCanonical := fun _ => Value.mkDict [
      ("body", Value.mkDict []),
      ("meta", Value.mkDict [
        ("accept", Value.bool true),
        ("signers", Value.mkList [Value.str "a", Value.str "a"])])],
    hashString := fun s => s,
    verify := fun _ _ _ => (false, "") }

/-- A negotiation sealed under consensus id "cid", signed by the single
signer "a". -/
def dupSignersNegotiation : Negotiation :=
  { id := "n", status := models.NegotiationStatus.DONE, text := some "T",
    consensus := some "cid", timestamp := some "ts", contributions := [],
    signings := [{ signer_key_id := "a", signature := "sig" }] }

/-- C4 counterexample: the sealed consensus "cid" decodes to
`meta.signers = ["a", "a"]`, whose SET equals the recorded signer set
{"a"} — the claim then demands success — yet authorize rejects, and with
Validation rather than Unauthorized: the comparison is by sorted lists,
which is duplicate-sensitive. -/
theorem handle_consensus_rejects_equal_sets :
    ((Value.mkList [Value.str "a", Value.str "a"]).strEntries).toFinset
      = (dupSignersNegotiation.signings.map
          (fun s => s.signer_key_id)).toFinset ∧
    handle_consensus dupSignersCodec [dupSignersNegotiation] "B"
      (Value.str "cid") = .error Err.validation :=
  ⟨by decide, rfl⟩

/-- C4 witness: the duplicated-signers consensus is retrieved and the
amended theorem's rejection branch applies to it. -/
theorem handle_consensus_signer_check_witness :
    retrieve_consensus [dupSignersNegotiation] (Value.str "cid")
      = .ok dupSignersNegotiation.to_consensus_dict ∧
    handle_consensus dupSignersCodec [dupSignersNegotiation] "B"
      (Value.str "cid") = .error Err.validation :=
  ⟨rfl, (handle_consensus_signer_check dupSignersCodec
    [dupSignersNegotiation] "B" (Value.str "cid")
    dupSignersNegotiation.to_consensus_dict rfl).1 (by decide) (by decide)⟩

/-! ## C5 — sealing a unanimously accepted negotiation -/

/-- Helper: the `mk_signings` fold, started from any accumulator whose dict
keys avoid the contributions' signers, appends one Signing and one dict
entry per contribution when the signers are pairwise distinct. -/
theorem mk_signings_go (cs : List Contribution) (s : List Signing)
    (d : List (String × String))
    (h : ∀ c ∈ cs, ∀ x ∈ d, (x.1 == c.signer_key_id) = false)
    (hnd : (cs.map (fun c => c.signer_key_id)).Nodup) :
    cs.foldl (fun acc c =>
        (acc.1 ++ [⟨c.signer_key_id, c.signature⟩],
         insertSig acc.2 c.signer_key_id c.signature)) (s, d)
      = (s ++ cs.map (fun c => ⟨c.signer_key_id, c.signature⟩),
         d ++ cs.map (fun c => (c.signer_key_id, c.signature))) := by
  induction cs generalizing s d with
  | nil => simp
  | cons c cs ih =>
    simp only [List.foldl_cons]
    have hfind : (d.find? (fun e => e.1 == c.signer_key_id)) = none :=
      List.find?_eq_none.mpr (fun x hx => by simp [h c (by simp) x hx])
    have hins : insertSig d c.signer_key_id c.signature
        = d ++ [(c.signer_key_id, c.signature)] := by
      simp [insertSig, hfind]
    rw [hins]
    have hcons : (∀ x ∈ cs, ¬ x.signer_key_id = c.signer_key_id)
        ∧ (cs.map (fun c => c.signer_key_id)).Nodup := by
      simpa using hnd
    have hnd' : (cs.map (fun c => c.signer_key_id)).Nodup := hcons.2
    have hmem : c.signer_key_id ∉ cs.map (fun c => c.signer_key_id) := by
      intro hin
      obtain ⟨c', hc', heq⟩ := List.mem_map.mp hin
      exact absurd heq (hcons.1 c' hc')
    have hnew : ∀ c' ∈ cs, ∀ x ∈ d ++ [(c.signer_key_id, c.signature)],
        (x.1 == c'.signer_key_id) = false := by
      intro c' hc' x hx
      rcases List.mem_append.mp hx with hxd | hxc
      · exact h c' (by simp [hc']) x hxd
      · simp only [List.mem_singleton] at hxc
        subst hxc
        simp only [beq_eq_false_iff_ne]
        intro heq
        apply hmem
        rw [heq]
        exact List.mem_map.mpr ⟨c', hc', rfl⟩
    rw [ih (s ++ [(⟨c.signer_key_id, c.signature⟩ : Signing)])
      (d ++ [(c.signer_key_id, c.signature)]) hnew hnd']
    simp

/-- Helper: with pairwise-distinct signers, `mk_signings` produces one
Signing row per contribution and the matching signer → signature dict. -/
theorem mk_signings_eq (cs : List Contribution)
    (hnd : (cs.map (fun c => c.signer_key_id)).Nodup) :
    mk_signings cs
      = (cs.map (fun c => ⟨c.signer_key_id, c.signature⟩),
         cs.map (fun c => (c.signer_key_id, c.signature))) := by
  have := mk_signings_go cs [] [] (by simp) hnd
  simpa [mk_signings] using this

/-- C5: when the latest contributions all carry one text `t` whose decoded
`meta.accept` is truthy (and, per the C8 invariant, their signers are
pairwise distinct), closure evaluation seals: the negotiation's text becomes
`t`, one frozen Signing per contributing signer is appended, the consensus
identifier becomes the hash of the canonical encoding of the mapping
{timestamp, negotiation id, text, signer-id → signature signings}, and the
status becomes DONE. -/
theorem check_close_negotiation_seals (C : Codec) (now : String)
    (neg : Negotiation) (t : String)
    (hl : (neg.get_latest_contributions.map
      (fun c => c.text)).eraseDups = [t])
    (hacc : (((C.fromCanonical t).getD "meta" (Value.mkDict [])).getD
      "accept" (Value.bool false)).truthy = true)
    (hnd : (neg.get_latest_contributions.map
      (fun c => c.signer_key_id)).Nodup) :
    check_close_negotiation C now neg = .ok
      { neg with
        text := some t,
        signings := neg.signings ++ neg.get_latest_contributions.map
          (fun c => { signer_key_id := c.signer_key_id,
                      signature := c.signature }),
        timestamp := some now,
        consensus := some (C.hashString (C.toCanonical (Value.mkDict [
          ("timestamp", .str now),
          ("negotiation_id", .str neg.id),
          ("text", .str t),
          ("signings", Value.mkDict (neg.get_latest_contributions.map
            (fun c => (c.signer_key_id, Value.str c.signature))))]))),
        status := models.NegotiationStatus.DONE } := by
  rw [check_close_negotiation, hl]
  simp only [hacc, if_true]
  rw [_close_negotiation]
  simp only [get_text, hl, mk_signings_eq neg.get_latest_contributions hnd,
    Bind.bind, Except.bind, Pure.pure, Except.pure, List.map_map]
  rfl

/-- A codec decoding every text to an accepted meta. -/
def sealCodec : Codec :=
  { toCanonical := fun _ => "CANON",
    fromCanonical := fun _ =>
      Value.mkDict [("meta", Value.mkDict [("accept", Value.bool true)])],
    hashString := fun s => "H:" ++ s,
    verify := fun _ _ _ => (false, "") }

/-- An open negotiation with two latest contributions agreeing on "T". -/
def sealNeg : Negotiation :=
  { id := "n5", status := models.NegotiationStatus.OPEN, text := none,
    consensus := none, timestamp := none,
    contributions := [
      { signer_key_id := "a", text := "T", signature := "sa", latest := true },
      { signer_key_id := "b", text := "T", signature := "sb", latest := true }],
    signings := [] }

/-- C5 witness: the two-signer negotiation unanimously proposing the
accepted text "T" seals successfully. -/
theorem check_close_negotiation_seals_witness :
    ((sealNeg.get_latest_contributions.map
      (fun c => c.text)).eraseDups = ["T"]) ∧
    (check_close_negotiation sealCodec "now" sealNeg).isOk = true :=
  ⟨rfl, by
    rw [check_close_negotiation_seals sealCodec "now" sealNeg "T" rfl rfl
      (by decide)]
    rfl⟩

/-! ## C6 — the permission check -/

/-- Helper: `assert_consensus_signed` succeeds iff the mapping is non-empty
and every listed owner appears in it. -/
theorem assert_consensus_signed_ok_iff (owners : List String)
    (signings : List (String × String)) :
    assert_consensus_signed owners signings = .ok () ↔
      (signings.isEmpty = false ∧
        ∀ o ∈ owners, (lookupSig signings o).isSome = true) := by
  unfold assert_consensus_signed
  split_ifs with h1 h2 <;> simp_all [List.all_eq_true]

/-- Helper: a successful lookup needs a non-empty mapping. -/
theorem lookupSig_isSome_not_nil {signings : List (String × String)}
    {k : String} (h : (lookupSig signings k).isSome = true) :
    signings.isEmpty = false := by
  cases signings with
  | nil => simp [lookupSig] at h
  | cons a l => rfl

/-- C6: `check_permission(subject, owners, mapping, requester)` succeeds
exactly when — owners declared: the requester is an owner and every owner
appears as a key of the mapping; no owners: the requester is the subject
itself and appears in the mapping — and every failure (an empty mapping can
satisfy neither branch) is Unauthorized. -/
theorem check_permission_characterization (peer_id : String)
    (owners : List String) (signings : List (String × String))
    (request_peer_id : String) :
    (check_permission peer_id owners signings request_peer_id = .ok () ↔
      (if owners ≠ [] then
        request_peer_id ∈ owners ∧
          ∀ o ∈ owners, (lookupSig signings o).isSome = true
      else
        request_peer_id = peer_id ∧
          (lookupSig signings request_peer_id).isSome = true)) ∧
    (∀ e, check_permission peer_id owners signings request_peer_id =
        .error e → e = Err.unauthorized) := by
  constructor
  · by_cases howners : owners = []
    · subst howners
      rw [check_permission]
      simp only [ne_eq, not_true_eq_false, if_false, List.isEmpty_nil,
        Bool.not_true, Bool.false_eq_true, assert_consensus_signed_ok_iff]
      by_cases hreq : request_peer_id = peer_id
      · simp only [hreq, bne_self_eq_false, Bool.false_eq_true, if_false,
          assert_consensus_signed_ok_iff, true_and]
        constructor
        · rintro ⟨-, h⟩
          exact h _ (by simp)
        · intro h
          exact ⟨lookupSig_isSome_not_nil h, by simpa using h⟩
      · have : (request_peer_id != peer_id) = true := by
          simpa [bne_iff_ne] using hreq
        simp [this, hreq]
    · rw [check_permission]
      have hne : owners.isEmpty = false := by
        simpa [List.isEmpty_iff] using howners
      simp only [ne_eq, howners, not_false_iff, if_true, hne, Bool.not_false,
        if_true]
      by_cases hmem : request_peer_id ∈ owners
      · have hc : owners.contains request_peer_id = true := by
          simpa [List.elem_iff] using hmem
        simp only [hc, Bool.not_true, Bool.false_eq_true, if_false,
          assert_consensus_signed_ok_iff, hmem, true_and]
        constructor
        · rintro ⟨-, h⟩
          exact h
        · intro h
          obtain ⟨o, ho⟩ := List.exists_mem_of_ne_nil owners howners
          exact ⟨lookupSig_isSome_not_nil (h o ho), h⟩
      · have hc : owners.contains request_peer_id = false := by
          simp [List.elem_iff, hmem]
        simp [hc, hmem]
  · intro e he
    rw [check_permission] at he
    unfold assert_consensus_signed at he
    split_ifs at he <;> simp_all

/-- C6 witness: subject "p" with owners ["o"], mapping holding "o",
requester "o" — the characterization's success condition holds and the check
succeeds. -/
theorem check_permission_characterization_witness :
    check_permission "p" ["o"] [("o", "s")] "o" = .ok () :=
  (check_permission_characterization "p" ["o"] [("o", "s")] "o").1.mpr
    (by decide)

/-! ## C9 — the `require_by_consensus` unbound local -/

/-- C9: whenever the request carries a truthy `by_consensus` with a present
(non-null) `consensus_id` but a `consensus_type` other than "structural",
`require_by_consensus` reads the never-assigned local `consensus_body` and
crashes with `UnboundLocalError` — not a typed Validation or Unauthorized
failure. -/
theorem require_by_consensus_unbound_local (C : Codec) (request_data : Value)
    (cid : Value)
    (htruthy : (request_data.getD "by_consensus"
      (Value.mkDict [])).truthy = true)
    (hcid : (request_data.getD "by_consensus"
      (Value.mkDict [])).get? "consensus_id" = some cid)
    (hnn : cid ≠ Value.null)
    (htype : (request_data.getD "by_consensus"
        (Value.mkDict [])).get? "consensus_type"
      ≠ some (Value.str T_STRUCTURAL)) :
    require_by_consensus C request_data =
      .error (Err.crash "UnboundLocalError") := by
  rw [require_by_consensus, htruthy, hcid]
  cases cid with
  | null => exact absurd rfl hnn
  | bool b => simp [htype]
  | str s => simp [htype]
  | list xs => simp [htype]
  | dict d => simp [htype]

/-- A request whose `by_consensus.consensus_type` is not "structural". -/
def otherTypeRequestData : Value :=
  Value.mkDict [("by_consensus", Value.mkDict [
    ("consensus_id", Value.str "x"),
    ("consensus_type", Value.str "other")])]

/-- C9 witness: a concrete request with `consensus_type = "other"` crashes
with the unbound local. -/
theorem require_by_consensus_unbound_local_witness :
    ((otherTypeRequestData.getD "by_consensus"
      (Value.mkDict [])).truthy = true) ∧
    require_by_consensus trivialCodec otherTypeRequestData =
      .error (Err.crash "UnboundLocalError") :=
  ⟨rfl, require_by_consensus_unbound_local trivialCodec otherTypeRequestData
    (Value.str "x") rfl rfl (by decide) (by decide)⟩

/-! ## C10 — the message content hash is not injective -/

/-- C10: `hash_message` concatenates text, sender and recipient with no
separator, so the distinct triples ("ab","c","d") and ("a","bc","d") feed
the identical string "abcd" to the digest and collide — two different
messages can share one content hash, whatever the underlying hash function
is. -/
theorem hash_message_not_injective (C : Codec) :
    hash_message C "ab" "c" "d" = hash_message C "a" "bc" "d" ∧
    ("ab", "c", "d") ≠ (("a", "bc", "d") : String × String × String) :=
  ⟨rfl, by decide⟩

/-! ## C7 — the optimistic-concurrency guard on endpoint update -/

/-- C7: an endpoint partial-update request whose `info.on_last_consensus_id`
is missing (null) or differs from the consensus id currently recorded on the
endpoint is rejected: `partial_update_logic` returns an error and no
transition is applied to the endpoint. -/
theorem partial_update_stale_rejected (C : Codec) (negs : List Negotiation)
    (peers : List Peer) (owners : List Owner) (msgs : List Message)
    (request : Request) (endpoint : Endpoint)
    (hmm : (request.data.getD "info" (Value.mkDict [])).getD
        "on_last_consensus_id" Value.null = Value.null
      ∨ (request.data.getD "info" (Value.mkDict [])).getD
        "on_last_consensus_id" Value.null ≠ endpoint.get_last_consensus_id) :
    (EndpointView.partial_update_logic C negs peers owners msgs request
      endpoint).isOk = false := by
  cases hv : validate_operation (request.data.getD "info" (Value.mkDict []))
      "partial_update" "endpoint" with
  | error e =>
    simp [EndpointView.partial_update_logic, hv, Bind.bind, Except.bind,
      Except.isOk, Except.toBool]
  | ok u =>
    cases hr : require_by_consensus C request.data with
    | error e =>
      simp [EndpointView.partial_update_logic, hv, hr, Bind.bind,
        Except.bind, Except.isOk, Except.toBool]
    | ok rc =>
      by_cases hnull : (request.data.getD "info" (Value.mkDict [])).getD
          "on_last_consensus_id" Value.null = Value.null
      · simp [EndpointView.partial_update_logic, hv, hr, hnull, Bind.bind,
          Except.bind, throw, throwThe, MonadExceptOf.throw, Except.isOk,
          Except.toBool]
      · have hne : (request.data.getD "info" (Value.mkDict [])).getD
            "on_last_consensus_id" Value.null
            ≠ endpoint.get_last_consensus_id := hmm.resolve_left hnull
        cases hid : (request.data.getD "info" (Value.mkDict [])).get? "id" with
        | none =>
          simp [EndpointView.partial_update_logic, hv, hr, hnull, hid,
            Bind.bind, Except.bind, Pure.pure, Except.pure, throw, throwThe,
            MonadExceptOf.throw, Except.isOk, Except.toBool]
        | some v =>
          by_cases hide : Value.str endpoint.endpoint_id = v
          · simp [EndpointView.partial_update_logic, hv, hr, hnull, hid,
              hide, Ne.symm hne, Bind.bind, Except.bind, Pure.pure,
              Except.pure, throw, throwThe, MonadExceptOf.throw,
              Except.isOk, Except.toBool]
          · simp [EndpointView.partial_update_logic, hv, hr, hnull, hid,
              hide, Bind.bind, Except.bind, Pure.pure, Except.pure, throw,
              throwThe, MonadExceptOf.throw, Except.isOk, Except.toBool]

/-- A request that carries no `info` at all (so no
`on_last_consensus_id`). -/
def staleRequest : Request :=
  { user_peer_id := "u", auth := none, data := Value.mkDict [] }

/-- C7 witness: with `on_last_consensus_id` missing the update is
rejected. -/
theorem partial_update_stale_rejected_witness :
    (EndpointView.partial_update_logic trivialCodec [] [] [] []
      staleRequest openEndpoint).isOk = false :=
  partial_update_stale_rejected trivialCodec [] [] [] [] staleRequest
    openEndpoint (Or.inl rfl)


/-! ## C8 — at most one latest contribution per signer -/

/-- C8's invariant: for every signer identity, at most one contribution of
the negotiation carries `latest = true`. -/
def latestInvariant (neg : Negotiation) : Prop :=
  ∀ s : String,
    neg.contributions.countP (fun c => c.signer_key_id == s && c.latest) ≤ 1

/-- Helper: closure evaluation (sealing included) never touches the
contribution rows. -/
theorem check_close_negotiation_contributions (C : Codec) (now : String)
    (n n' : Negotiation)
    (h : check_close_negotiation C now n = .ok n') :
    n'.contributions = n.contributions := by
  rw [check_close_negotiation] at h
  cases he : (n.get_latest_contributions.map (fun c => c.text)).eraseDups with
  | nil =>
    rw [he] at h
    simp only [Except.ok.injEq] at h
    rw [← h]
  | cons t ts =>
    cases ts with
    | nil =>
      rw [he] at h
      dsimp only at h
      by_cases hacc : (((C.fromCanonical t).getD "meta"
          (Value.mkDict [])).getD "accept" (Value.bool false)).truthy = true
      · rw [if_pos hacc, _close_negotiation] at h
        cases hg : get_text n.get_latest_contributions with
        | error e =>
          rw [hg] at h
          simp [Bind.bind, Except.bind] at h
        | ok t' =>
          rw [hg] at h
          simp only [Bind.bind, Except.bind, Pure.pure, Except.pure,
            Except.ok.injEq] at h
          rw [← h]
      · rw [if_neg hacc] at h
        simp only [Except.ok.injEq] at h
        rw [← h]
    | cons t' ts' =>
      rw [he] at h
      simp only [Except.ok.injEq] at h
      rw [← h]

/-- Helper: a successful bind factors through a successful first step. -/
theorem except_bind_ok {α β : Type} {x : Except Err α} {f : α → Except Err β}
    {b : β} (h : x >>= f = .ok b) : ∃ a, x = .ok a ∧ f a = .ok b := by
  cases x with
  | error e => simp [Bind.bind, Except.bind] at h
  | ok a => exact ⟨a, rfl, by simpa [Bind.bind, Except.bind] using h⟩

/-- C8: a successful `contribute_to_negotiation` preserves the invariant —
it first clears the `latest` flag on every prior contribution by the
recovered signer and then appends exactly one new contribution with
`latest = true`, and sealing leaves contributions untouched. -/
theorem contribute_preserves_latest_invariant (C : Codec) (now : String)
    (neg : Negotiation) (request : Value) (key_data : Option String)
    (result : Negotiation × Contribution)
    (hinv : latestInvariant neg)
    (hok : contribute_to_negotiation C now neg request key_data
      = .ok result) :
    latestInvariant result.1 := by
  rw [contribute_to_negotiation] at hok
  split at hok
  · exact Except.noConfusion hok
  · simp only [pure_bind] at hok
    obtain ⟨text, ht, hok⟩ := except_bind_ok hok
    obtain ⟨sig, hs, hok⟩ := except_bind_ok hok
    obtain ⟨signer, hk, hok⟩ := except_bind_ok hok
    split at hok
    · exact Except.noConfusion hok
    · split at hok
      · exact Except.noConfusion hok
      · obtain ⟨neg3, hc, hp⟩ := except_bind_ok hok
        have hres : result =
            (neg3, { signer_key_id := (C.verify text sig key_data).2,
                     text := text, signature := sig, latest := true }) := by
          simpa [Pure.pure, Except.pure] using hp.symm
        have hcontr := check_close_negotiation_contributions C now _ _ hc
        rw [hres]
        intro s
        dsimp only [latestInvariant]
        rw [hcontr]
        dsimp only
        set k := (C.verify text sig key_data).2 with hkdef
        rw [List.countP_append, List.countP_map]
        by_cases hks : (k == s) = true
        · have hzero : neg.contributions.countP
              ((fun (c : Contribution) => c.signer_key_id == s && c.latest) ∘
                (fun (c : Contribution) =>
                  if (c.signer_key_id == k) = true then
                  { signer_key_id := c.signer_key_id, text := c.text,
                    signature := c.signature, latest := false }
                  else c)) = 0 := by
            rw [List.countP_eq_zero]
            intro c hc
            by_cases hcs : (c.signer_key_id == k) = true
            · simp [Function.comp, hcs]
            · have hkey : k = s := eq_of_beq hks
              have hcsf : (c.signer_key_id == s) = false := by
                rw [← hkey]
                simpa using hcs
              simp [Function.comp, hcs, hcsf]
          rw [hzero]
          simp [List.countP_cons, hks]
        · have hone : List.countP
              (fun (c : Contribution) => c.signer_key_id == s && c.latest)
              [{ signer_key_id := k, text := text, signature := sig,
                 latest := true }] = 0 := by
            simp only [List.countP_cons, List.countP_nil]
            simp [hks]
          rw [hone]
          have hmono : neg.contributions.countP
              ((fun (c : Contribution) => c.signer_key_id == s && c.latest) ∘
                (fun (c : Contribution) =>
                  if (c.signer_key_id == k) = true then
                  { signer_key_id := c.signer_key_id, text := c.text,
                    signature := c.signature, latest := false }
                  else c)) ≤
              neg.contributions.countP
                (fun c => c.signer_key_id == s && c.latest) := by
            apply List.countP_mono_left
            intro c hc hpc
            by_cases hcs : (c.signer_key_id == k) = true
            · simp [Function.comp, hcs] at hpc
            · simpa [Function.comp, hcs] using hpc
          have := hinv s
          omega

/-- A codec accepting every signature as signer "A". -/
def contribCodec : Codec :=
  { toCanonical := fun _ => "CANON",
    fromCanonical := fun _ => Value.mkDict [],
    hashString := fun s => "H:" ++ s,
    verify := fun _ _ _ => (true, "A") }

/-- An open negotiation with no contributions yet. -/
def freshNeg : Negotiation :=
  { id := "n8", status := models.NegotiationStatus.OPEN, text := none,
    consensus := none, timestamp := none, contributions := [],
    signings := [] }

/-- A contribution request signed by "A". -/
def contribRequest : Value :=
  Value.mkDict [("text", Value.str "T"), ("signature", Value.str "S"),
    ("signer_key_id", Value.str "A")]

/-- C8 witness: contributing to the fresh negotiation yields the
one-contribution state, for which the invariant holds. -/
theorem contribute_preserves_latest_invariant_witness :
    latestInvariant
      { id := "n8", status := models.NegotiationStatus.OPEN, text := none,
        consensus := none, timestamp := none,
        contributions := [⟨"A", "T", "S", true⟩], signings := [] } :=
  contribute_preserves_latest_invariant contribCodec "now" freshNeg
    contribRequest none
    ({ id := "n8", status := models.NegotiationStatus.OPEN, text := none,
       consensus := none, timestamp := none,
       contributions := [⟨"A", "T", "S", true⟩], signings := [] },
     ⟨"A", "T", "S", true⟩)
    (fun _ => Nat.zero_le 1) rfl

end Panoramix
